import Mathlib

/-!
Shallow embedding of `FacesBenchmarkUtils/baseModel.py` (class `BaseModel`).

The external deep-learning framework is modelled abstractly:
tensors carry only their shape, a checkpoint is an insertion-ordered
association list (mirroring a Python `dict`) whose values are either
tensors or a nested state dictionary, and the torch runtime facts the
constructor consults (accelerator availability, device count, the
deserialized content of a checkpoint file) are a structure of inputs.
Exceptions are modelled with `Except`; each Python failure mode maps to
an error constructor.
-/

set_option autoImplicit false

namespace FacesBenchmark

/-- A tensor, abstracted to its shape (`t.shape` in the source). -/
structure Tensor where
  shape : List Nat
  deriving DecidableEq, Repr

/-- A value stored in a checkpoint: a parameter tensor, or a nested
state dictionary (as under the `state_dict` key). -/
inductive CkptVal where
  | tensor (t : Tensor)
  | dict (d : List (String × Tensor))
  deriving DecidableEq, Repr

/-- A checkpoint: an insertion-ordered mapping from names to values,
mirroring the Python `dict` returned by `torch.load`. -/
abbrev Checkpoint := List (String × CkptVal)

/-- The compute device chosen at construction time. -/
inductive Device where
  | cuda
  | cpu
  deriving DecidableEq, Repr

/-- Facts about the torch runtime consulted during construction:
`torch.cuda.is_available()`, `torch.cuda.device_count()`, and the
checkpoint `torch.load` would deserialize from a given path (`none`
models an I/O or deserialization failure). -/
structure TorchEnv where
  cuda_available : Bool
  cuda_device_count : Nat
  load : String → Option Checkpoint

/-- The underlying network object a subclass assigns in `_build_model`:
its named submodules (`model.named_modules()`) and the parameter names
its `load_state_dict` expects. -/
structure NNModel where
  named_modules : List String
  param_names : List String
  deriving DecidableEq, Repr

/-- Python exception classes raised by the modelled code paths. -/
inductive PyError where
  | ioError
  | indexError
  | attributeError
  | runtimeError
  | valueError (msg : String)
  deriving DecidableEq, Repr

/-- An image transform of `torchvision.transforms`. Normalization
statistics are exact rationals (the decimal literals of the source). -/
inductive Transform where
  | resize (h w : Nat)
  | toTensor
  | normalize (mean std : List Rat)
  deriving DecidableEq, Repr

/-- A preprocessing function: either a `transforms.Compose` pipeline or
an opaque user-supplied callable (identified by a tag). -/
inductive Preprocess where
  | pipeline (ts : List Transform)
  | custom (tag : Nat)
  deriving DecidableEq, Repr

/-- `torch.device("cuda" if torch.cuda.is_available() else "cpu")`. -/
def pick_device (env : TorchEnv) : Device :=
  if env.cuda_available then Device.cuda else Device.cpu

/-- Python truthiness of `self.weights_path` in `if weights_path:`
(`None` and the empty string are falsy). -/
def truthy : Option String → Bool
  | none => false
  | some s => !s.isEmpty

/-- The string `self.weights_path` holds on a branch guarded by its
truthiness (the `none` case is unreachable there). -/
def pathOf : Option String → String
  | none => ""
  | some s => s

/-- `set_preprocess_function`: the default `transforms.Compose` pipeline
used when no preprocessing function is provided. -/
def default_preprocess : Preprocess :=
  Preprocess.pipeline
    [ Transform.resize 224 224
    , Transform.toTensor
    , Transform.normalize
        [(485 : Rat)/1000, (456 : Rat)/1000, (406 : Rat)/1000]
        [(229 : Rat)/1000, (224 : Rat)/1000, (225 : Rat)/1000] ]

/-- `set_preprocess_function`: uses the default pipeline if none is
provided, otherwise the provided function verbatim. -/
def set_preprocess_function : Option Preprocess → Preprocess
  | none => default_preprocess
  | some f => f

/-- `_set_num_identities`: loads the checkpoint and returns the first
dimension of the shape of its last entry, looking under `state_dict`
when that key is present.  Failure modes: `torch.load` failure
(`ioError`), indexing `[-1]` into an empty key list (`indexError`),
calling `.keys()` or `.shape` on a value of the wrong kind
(`attributeError`), and an empty shape (`indexError`). -/
def set_num_identities (env : TorchEnv) (_device : Device) (path : String) :
    Except PyError Nat :=
  match env.load path with
  | none => Except.error PyError.ioError
  | some checkpoint =>
    match List.lookup "state_dict" checkpoint with
    | some (CkptVal.dict sd) =>
      match sd.getLast? with
      | none => Except.error PyError.indexError
      | some kv =>
        match kv.2.shape with
        | [] => Except.error PyError.indexError
        | d0 :: _ => Except.ok d0
    | some (CkptVal.tensor _) => Except.error PyError.attributeError
    | none =>
      match checkpoint.getLast? with
      | none => Except.error PyError.indexError
      | some (_, CkptVal.dict _) => Except.error PyError.attributeError
      | some (_, CkptVal.tensor t) =>
        match t.shape with
        | [] => Except.error PyError.indexError
        | d0 :: _ => Except.ok d0

/-- The characters of the pattern `"module."` passed to `str.replace`. -/
def moduleChars : List Char := ['m', 'o', 'd', 'u', 'l', 'e', '.']

/-- `k.replace("module.", "")` on the character list of `k`: scanning
left to right, every non-overlapping occurrence of `module.` is
removed; a non-matching character is kept and the scan advances by one.
The seven-character pattern is matched literally so the recursion is
structural. -/
def stripModuleAll : List Char → List Char
  | 'm' :: 'o' :: 'd' :: 'u' :: 'l' :: 'e' :: '.' :: rest => stripModuleAll rest
  | c :: rest => c :: stripModuleAll rest
  | [] => []

/-- The key transformation of `_load_model`:
`k.replace("module.", "")`. -/
def stripKey (k : String) : String :=
  String.mk (stripModuleAll k.data)

/-- Does `pat` occur as a prefix of `s`? (Helper for specifying
`str.replace`.) -/
def beginsWith : List Char → List Char → Bool
  | [], _ => true
  | _ :: _, [] => false
  | p :: ps, c :: cs => p == c && beginsWith ps cs

/-- Does `pat` occur as a contiguous substring of `s`? -/
def hasOcc (pat : List Char) : List Char → Bool
  | [] => beginsWith pat []
  | c :: rest => beginsWith pat (c :: rest) || hasOcc pat rest

/-- Observable construction events, in the order they occur.
`readCheckpoint` is a `torch.load` call; `loadWeightsIntoModel` is
`self.model.load_state_dict`; `moveModelToDevice` is
`self.model.to(self.device)`. -/
inductive Event where
  | setPreprocess
  | readCheckpoint
  | buildModel
  | loadWeightsIntoModel
  | wrapDataParallel
  | moveModelToDevice
  | setEval
  | registerHook (layer : String)
  deriving DecidableEq, Repr

/-- The attributes of a `BaseModel` instance. -/
structure ModelState where
  name : String
  weights_path : Option String
  extract_layer : Option String
  preprocess : Preprocess
  hook_output : Option Tensor
  device : Device
  num_identities : Option Nat
  model : Option NNModel
  model_device : Option Device
  data_parallel : Bool
  eval_mode : Bool
  hooked : List String
  deriving DecidableEq, Repr

/-- The attribute assignments at the top of `__init__`, before
`_set_num_identities` runs. -/
def init_state (name : String) (wp el : Option String) (pf : Option Preprocess)
    (env : TorchEnv) : ModelState :=
  { name := name
  , weights_path := wp
  , extract_layer := el
  , preprocess := set_preprocess_function pf
  , hook_output := none
  , device := pick_device env
  , num_identities := none
  , model := none
  , model_device := none
  , data_parallel := false
  , eval_mode := false
  , hooked := [] }

/-- `self.num_identities = self._set_num_identities() if weights_path else None`.
The `readCheckpoint` event records the `torch.load` call. -/
def num_identities_step (env : TorchEnv) (s : ModelState) :
    List Event × Except PyError ModelState :=
  if truthy s.weights_path then
    match set_num_identities env s.device (pathOf s.weights_path) with
    | Except.error e => ([Event.readCheckpoint], Except.error e)
    | Except.ok n =>
      ([Event.readCheckpoint], Except.ok { s with num_identities := some n })
  else ([], Except.ok s)

/-- `state_dict = checkpoint.get('state_dict', checkpoint)` followed by
`.items()`: yields the nested dictionary when the `state_dict` key is
present (an `attributeError` when that value is a tensor), else the
checkpoint itself, whose values must all be tensors for the subsequent
`load_state_dict` to accept them (`runtimeError` otherwise). -/
def tensor_entries : Checkpoint → Option (List (String × Tensor))
  | [] => some []
  | (k, CkptVal.tensor t) :: rest =>
    match tensor_entries rest with
    | some d => some ((k, t) :: d)
    | none => none
  | (_, CkptVal.dict _) :: _ => none

/-- See `tensor_entries`. -/
def get_state_dict (checkpoint : Checkpoint) :
    Except PyError (List (String × Tensor)) :=
  match List.lookup "state_dict" checkpoint with
  | some (CkptVal.dict d) => Except.ok d
  | some (CkptVal.tensor _) => Except.error PyError.attributeError
  | none =>
    match tensor_entries checkpoint with
    | some d => Except.ok d
    | none => Except.error PyError.runtimeError

/-- Strict `load_state_dict` key acceptance: no missing and no
unexpected parameter names. -/
def keysMatch (ks expected : List String) : Bool :=
  ks.all (fun k => expected.contains k) && expected.all (fun k => ks.contains k)

/-- `self.to()`: `if self.model: self.model.to(self.device)`. -/
def to_device (s : ModelState) : ModelState × List Event :=
  match s.model with
  | some _ => ({ s with model_device := some s.device }, [Event.moveModelToDevice])
  | none => (s, [])

/-- `_load_model`: re-opens the checkpoint, strips `module.` from the
parameter names, loads the result into the model (`runtimeError` on a
key mismatch), wraps in `nn.DataParallel` when more than one device is
present, moves to the device, and switches to evaluation mode. -/
def load_model (env : TorchEnv) (s : ModelState) :
    List Event × Except PyError ModelState :=
  match env.load (pathOf s.weights_path) with
  | none => ([Event.readCheckpoint], Except.error PyError.ioError)
  | some checkpoint =>
    match get_state_dict checkpoint with
    | Except.error e => ([Event.readCheckpoint], Except.error e)
    | Except.ok sd =>
      match s.model with
      | none => ([Event.readCheckpoint], Except.error PyError.attributeError)
      | some m =>
        if keysMatch ((sd.map (fun kv => (stripKey kv.1, kv.2))).map Prod.fst)
            m.param_names then
          let s1 := if env.cuda_device_count > 1
            then { s with data_parallel := true } else s
          let wrapTr := if env.cuda_device_count > 1
            then [Event.wrapDataParallel] else ([] : List Event)
          let p := to_device s1
          ([Event.readCheckpoint, Event.loadWeightsIntoModel] ++ wrapTr ++ p.2
             ++ [Event.setEval],
           Except.ok { p.1 with eval_mode := true })
        else ([Event.readCheckpoint], Except.error PyError.runtimeError)

/-- `if weights_path: self._load_model()`. -/
def load_step (env : TorchEnv) (s : ModelState) :
    List Event × Except PyError ModelState :=
  if truthy s.weights_path then load_model env s else ([], Except.ok s)

/-- `_get_layer`: returns `None` when the name is `None`, the module
when the name occurs in `self.model.named_modules()`, and raises a
`ValueError` naming the layer otherwise.  A found module is identified
by its name. -/
def get_layer (m : NNModel) : Option String → Except PyError (Option String)
  | none => Except.ok none
  | some nm =>
    if m.named_modules.contains nm then Except.ok (some nm)
    else Except.error (PyError.valueError ("Layer " ++ nm ++ " not found in the model."))

/-- `_register_hook`: when `extract_layer` is not `None`, looks the
layer up and registers `hook_fn` as a forward hook on it.  Module
objects are truthy, so a found layer is always registered. -/
def register_hook (s : ModelState) : List Event × Except PyError ModelState :=
  match s.extract_layer with
  | none => ([], Except.ok s)
  | some nm =>
    match s.model with
    | none => ([], Except.error PyError.attributeError)
    | some m =>
      match get_layer m (some nm) with
      | Except.error e => ([], Except.error e)
      | Except.ok none => ([], Except.ok s)
      | Except.ok (some l) =>
        ([Event.registerHook l], Except.ok { s with hooked := l :: s.hooked })

/-- `__init__` up to and including the second `self.to()` call:
attribute assignments, `_set_num_identities` (guarded by the truthiness
of `weights_path`), `_build_model` (the subclass assigns `built`),
`_load_model` (same guard), `self.to()`. -/
def construct_pre (env : TorchEnv) (built : NNModel) (name : String)
    (wp el : Option String) (pf : Option Preprocess) :
    List Event × Except PyError ModelState :=
  match num_identities_step env (init_state name wp el pf env) with
  | (t1, Except.error e) => (Event.setPreprocess :: t1, Except.error e)
  | (t1, Except.ok s1) =>
    match load_step env { s1 with model := some built } with
    | (t3, Except.error e) =>
      (Event.setPreprocess :: t1 ++ [Event.buildModel] ++ t3, Except.error e)
    | (t3, Except.ok s3) =>
      let p := to_device s3
      (Event.setPreprocess :: t1 ++ [Event.buildModel] ++ t3 ++ p.2,
       Except.ok p.1)

/-- The whole of `__init__`: `construct_pre` followed by
`_register_hook`.  Returns the events that occurred (also on failure)
and the constructed instance or the raised exception. -/
def construct (env : TorchEnv) (built : NNModel) (name : String)
    (wp el : Option String) (pf : Option Preprocess) :
    List Event × Except PyError ModelState :=
  match construct_pre env built name wp el pf with
  | (tr, Except.error e) => (tr, Except.error e)
  | (tr, Except.ok s4) =>
    let q := register_hook s4
    (tr ++ q.1, q.2)

/-- `hook_fn(self, module, input, output)`:
`self.hook_output = output`. -/
def hook_fn (s : ModelState) (_module : String) (_inp output : Tensor) :
    ModelState :=
  { s with hook_output := some output }

/-- One forward computation pass in which layer `layer` produces
`output`: the registered forward hooks on that layer fire. -/
def forward_pass (s : ModelState) (layer : String) (output : Tensor) :
    ModelState :=
  if s.hooked.contains layer then hook_fn s layer output output else s

/-- A sequence of forward passes, oldest first. -/
def run_passes (s : ModelState) (ps : List (String × Tensor)) : ModelState :=
  ps.foldl (fun st p => forward_pass st p.1 p.2) s

/-- Scanning a construction trace from the start: the first event among
model building, weight loading into the model, and moving the model to
a device is the build (or none of the three occurs). -/
def buildsFirst : List Event → Bool
  | [] => true
  | Event.buildModel :: _ => true
  | Event.loadWeightsIntoModel :: _ => false
  | Event.moveModelToDevice :: _ => false
  | Event.setPreprocess :: rest => buildsFirst rest
  | Event.readCheckpoint :: rest => buildsFirst rest
  | Event.wrapDataParallel :: rest => buildsFirst rest
  | Event.setEval :: rest => buildsFirst rest
  | Event.registerHook _ :: rest => buildsFirst rest

/-! ## Concrete fixtures used by the witnesses -/

/-- A tensor whose first dimension is 7. -/
def wTensor : Tensor := { shape := [7, 3] }

/-- An unwrapped checkpoint: a plain mapping from names to tensors. -/
def wCkptRaw : Checkpoint :=
  [("fc.weight", CkptVal.tensor { shape := [5, 2] }),
   ("fc.bias", CkptVal.tensor wTensor)]

/-- A runtime without an accelerator that deserializes `wCkptRaw` from
every path. -/
def wEnv : TorchEnv :=
  { cuda_available := false, cuda_device_count := 0
  , load := fun _ => some wCkptRaw }

/-- A checkpoint wrapping a state dictionary with a `module.`-prefixed
parameter name. -/
def w2Ckpt : Checkpoint :=
  [("state_dict", CkptVal.dict [("module.w", wTensor)])]

/-- A single-accelerator runtime that deserializes `w2Ckpt`. -/
def w2Env : TorchEnv :=
  { cuda_available := false, cuda_device_count := 1
  , load := fun _ => some w2Ckpt }

/-- A network expecting the unprefixed parameter name `w`. -/
def w2Model : NNModel := { named_modules := [""], param_names := ["w"] }

/-- An instance mid-construction, just after `_build_model` assigned
`w2Model`. -/
def w2State : ModelState :=
  { init_state "m" (some "p") none none w2Env with model := some w2Model }

/-- A network with a named submodule `fc`. -/
def w3Model : NNModel := { named_modules := ["", "fc"], param_names := [] }

/-- A runtime with an accelerator and no readable checkpoint. -/
def w3Env : TorchEnv :=
  { cuda_available := true, cuda_device_count := 1, load := fun _ => none }

/-- An instance with a forward hook registered on layer `fc`. -/
def w4State : ModelState :=
  { init_state "m" none (some "fc") none w3Env with
      model := some w3Model, hooked := ["fc"] }

/-! ## Helper lemmas about the key transformation -/

/-- A leading occurrence of the pattern is removed in one scan step. -/
theorem stripModuleAll_append_pat (k : List Char) :
    stripModuleAll (moduleChars ++ k) = stripModuleAll k := rfl

/-- Splitting a successful `beginsWith` into head and tail. -/
theorem beginsWith_true_cons (p : Char) (ps s : List Char)
    (h : beginsWith (p :: ps) s = true) :
    ∃ t, s = p :: t ∧ beginsWith ps t = true := by
  cases s with
  | nil => cases h
  | cons c cs =>
      rw [beginsWith, Bool.and_eq_true, beq_iff_eq] at h
      exact ⟨cs, by rw [h.1], h.2⟩

/-- A list beginning with `module.` decomposes into those seven
characters followed by a tail. -/
theorem begins_module_shape (c : Char) (rest : List Char)
    (hbw : beginsWith moduleChars (c :: rest) = true) :
    ∃ t, c = 'm' ∧ rest = 'o' :: 'd' :: 'u' :: 'l' :: 'e' :: '.' :: t := by
  simp only [moduleChars] at hbw
  obtain ⟨t1, e1, b1⟩ := beginsWith_true_cons _ _ _ hbw
  obtain ⟨hc, hr⟩ := List.cons.inj e1
  subst hc; subst hr
  obtain ⟨t2, e2, b2⟩ := beginsWith_true_cons _ _ _ b1
  subst e2
  obtain ⟨t3, e3, b3⟩ := beginsWith_true_cons _ _ _ b2
  subst e3
  obtain ⟨t4, e4, b4⟩ := beginsWith_true_cons _ _ _ b3
  subst e4
  obtain ⟨t5, e5, b5⟩ := beginsWith_true_cons _ _ _ b4
  subst e5
  obtain ⟨t6, e6, b6⟩ := beginsWith_true_cons _ _ _ b5
  subst e6
  obtain ⟨t7, e7, b7⟩ := beginsWith_true_cons _ _ _ b6
  subst e7
  exact ⟨t7, rfl, rfl⟩

/-- When the scan position does not match the pattern, the character is
kept and the scan advances by one. -/
theorem stripModuleAll_cons_not_begins (c : Char) (rest : List Char)
    (h : beginsWith moduleChars (c :: rest) = false) :
    stripModuleAll (c :: rest) = c :: stripModuleAll rest := by
  rw [stripModuleAll.eq_def]
  split
  · next rest1 heq =>
      rw [heq] at h
      simp [moduleChars, beginsWith] at h
  · next c2 rest2 hmiss heq =>
      cases heq
      rfl
  · next heq => cases heq

/-- A list with no occurrence of `module.` is left unchanged by the key
transformation. -/
theorem stripModuleAll_of_no_occ (k : List Char)
    (h : hasOcc moduleChars k = false) : stripModuleAll k = k := by
  induction k with
  | nil => rfl
  | cons c rest ih =>
      rw [hasOcc] at h
      rw [Bool.or_eq_false_iff] at h
      rw [stripModuleAll_cons_not_begins c rest h.1, ih h.2]

/-- A list with at least one occurrence of `module.` is strictly
shortened by the key transformation (hence altered). -/
theorem stripModuleAll_length_lt (k : List Char)
    (h : hasOcc moduleChars k = true) :
    (stripModuleAll k).length < k.length := by
  induction k using stripModuleAll.induct with
  | case1 rest ih =>
      by_cases hr : hasOcc moduleChars rest = true
      · have := ih hr
        simp only [stripModuleAll, List.length_cons]
        omega
      · rw [Bool.not_eq_true] at hr
        rw [stripModuleAll, stripModuleAll_of_no_occ rest hr]
        simp only [List.length_cons]
        omega
  | case2 c rest hmiss ih =>
      have hb : beginsWith moduleChars (c :: rest) = false := by
        cases hbw : beginsWith moduleChars (c :: rest) with
        | false => rfl
        | true =>
            obtain ⟨t, hc, hrest⟩ := begins_module_shape c rest hbw
            exact absurd trivial (fun _ => hmiss t hc hrest)
      rw [hasOcc, hb, Bool.false_or] at h
      rw [stripModuleAll_cons_not_begins c rest hb]
      simp only [List.length_cons]
      exact Nat.succ_lt_succ (ih h)
  | case3 => cases h

/-! ## Helper lemmas about the construction steps -/

/-- `num_identities_step` can change only `num_identities`. -/
theorem num_identities_step_ok_fields (env : TorchEnv) (s : ModelState)
    (t : List Event) (s' : ModelState)
    (h : num_identities_step env s = (t, Except.ok s')) :
    s'.name = s.name ∧ s'.weights_path = s.weights_path ∧
    s'.extract_layer = s.extract_layer ∧ s'.preprocess = s.preprocess ∧
    s'.hook_output = s.hook_output ∧ s'.device = s.device ∧
    s'.model = s.model ∧ s'.hooked = s.hooked := by
  unfold num_identities_step at h
  split at h
  · split at h
    · simp at h
    · simp only [Prod.mk.injEq, Except.ok.injEq] at h
      obtain ⟨-, hs⟩ := h
      subst hs
      simp
  · simp only [Prod.mk.injEq, Except.ok.injEq] at h
    obtain ⟨-, hs⟩ := h
    subst hs
    exact ⟨rfl, rfl, rfl, rfl, rfl, rfl, rfl, rfl⟩

/-- A falsy `weights_path` skips identity-count inference entirely. -/
theorem num_identities_step_of_falsy (env : TorchEnv) (s : ModelState)
    (h : truthy s.weights_path = false) :
    num_identities_step env s = ([], Except.ok s) := by
  unfold num_identities_step
  rw [h]
  simp

/-- `num_identities_step` performs at most one checkpoint read and no
other event. -/
theorem num_identities_step_trace (env : TorchEnv) (s : ModelState) :
    (num_identities_step env s).1 = [] ∨
    (num_identities_step env s).1 = [Event.readCheckpoint] := by
  unfold num_identities_step
  split
  · split <;> simp
  · simp

/-- `self.to()` changes only `model_device`. -/
theorem to_device_fields (s : ModelState) :
    (to_device s).1.name = s.name ∧
    (to_device s).1.weights_path = s.weights_path ∧
    (to_device s).1.extract_layer = s.extract_layer ∧
    (to_device s).1.preprocess = s.preprocess ∧
    (to_device s).1.hook_output = s.hook_output ∧
    (to_device s).1.device = s.device ∧
    (to_device s).1.model = s.model ∧
    (to_device s).1.num_identities = s.num_identities ∧
    (to_device s).1.hooked = s.hooked := by
  unfold to_device
  split <;> simp

/-- `self.to()` emits at most a device move. -/
theorem to_device_trace (s : ModelState) :
    (to_device s).2 = [] ∨ (to_device s).2 = [Event.moveModelToDevice] := by
  unfold to_device
  split <;> simp

/-- A successful `_load_model` changes only `data_parallel`,
`model_device` and `eval_mode`. -/
theorem load_model_ok_fields (env : TorchEnv) (s : ModelState)
    (t : List Event) (s' : ModelState)
    (h : load_model env s = (t, Except.ok s')) :
    s'.name = s.name ∧ s'.weights_path = s.weights_path ∧
    s'.extract_layer = s.extract_layer ∧ s'.preprocess = s.preprocess ∧
    s'.hook_output = s.hook_output ∧ s'.device = s.device ∧
    s'.model = s.model ∧ s'.num_identities = s.num_identities ∧
    s'.hooked = s.hooked := by
  unfold load_model at h
  split at h
  · simp at h
  · split at h
    · simp at h
    · split at h
      · simp at h
      · split at h
        · simp only [Prod.mk.injEq, Except.ok.injEq] at h
          obtain ⟨-, hs⟩ := h
          subst hs
          unfold to_device
          split <;> split <;> simp
        · simp at h

/-- `_set_num_identities` never raises a `ValueError`. -/
theorem set_num_identities_no_value_error (env : TorchEnv) (d : Device)
    (p : String) (msg : String) :
    set_num_identities env d p ≠ Except.error (PyError.valueError msg) := by
  unfold set_num_identities
  split
  · simp
  · split
    · split
      · simp
      · split <;> simp
    · simp
    · split
      · simp
      · simp
      · split <;> simp

/-- `_load_model` never raises a `ValueError`. -/
theorem load_model_no_value_error (env : TorchEnv) (s : ModelState)
    (msg : String) :
    (load_model env s).2 ≠ Except.error (PyError.valueError msg) := by
  unfold load_model
  split
  · simp
  · split
    · next e heq =>
        unfold get_state_dict at heq
        split at heq
        · simp at heq
        · simp only [Except.error.injEq] at heq
          simp [← heq]
        · split at heq
          · simp at heq
          · simp only [Except.error.injEq] at heq
            simp [← heq]
    · split
      · simp
      · split <;> simp

/-- The events of `_load_model` are checkpoint reads, the weight load,
the multi-device wrap, device moves and the eval switch. -/
theorem load_model_trace_events (env : TorchEnv) (s : ModelState)
    (e : Event) (he : e ∈ (load_model env s).1) :
    e = Event.readCheckpoint ∨ e = Event.loadWeightsIntoModel ∨
    e = Event.wrapDataParallel ∨ e = Event.moveModelToDevice ∨
    e = Event.setEval := by
  unfold load_model at he
  split at he
  · simp at he; simp [he]
  · split at he
    · simp at he; simp [he]
    · split at he
      · simp at he; simp [he]
      · split at he
        · simp only at he
          split at he <;>
            cases hm : s.model <;>
              simp [to_device, hm] at he <;> tauto
        · simp at he; simp [he]

/-- A successful `_register_hook` changes only `hooked`. -/
theorem register_hook_ok_fields (s : ModelState) (t : List Event)
    (s' : ModelState) (h : register_hook s = (t, Except.ok s')) :
    s'.name = s.name ∧ s'.weights_path = s.weights_path ∧
    s'.extract_layer = s.extract_layer ∧ s'.preprocess = s.preprocess ∧
    s'.hook_output = s.hook_output ∧ s'.device = s.device ∧
    s'.model = s.model ∧ s'.num_identities = s.num_identities := by
  unfold register_hook at h
  split at h
  · simp only [Prod.mk.injEq, Except.ok.injEq] at h
    obtain ⟨-, hs⟩ := h
    subst hs
    exact ⟨rfl, rfl, rfl, rfl, rfl, rfl, rfl, rfl⟩
  · split at h
    · simp at h
    · split at h
      · simp at h
      · simp only [Prod.mk.injEq, Except.ok.injEq] at h
        obtain ⟨-, hs⟩ := h
        subst hs
        exact ⟨rfl, rfl, rfl, rfl, rfl, rfl, rfl, rfl⟩
      · simp only [Prod.mk.injEq, Except.ok.injEq] at h
        obtain ⟨-, hs⟩ := h
        subst hs
        simp

/-- With no layer to instrument, `_register_hook` does nothing. -/
theorem register_hook_none (s : ModelState) (h : s.extract_layer = none) :
    register_hook s = ([], Except.ok s) := by
  unfold register_hook
  rw [h]


/-! ## Helper lemmas about the full construction -/

theorem load_step_ok_fields (env : TorchEnv) (s : ModelState)
    (t : List Event) (s' : ModelState)
    (h : load_step env s = (t, Except.ok s')) :
    s'.name = s.name ∧ s'.weights_path = s.weights_path ∧
    s'.extract_layer = s.extract_layer ∧ s'.preprocess = s.preprocess ∧
    s'.hook_output = s.hook_output ∧ s'.device = s.device ∧
    s'.model = s.model ∧ s'.num_identities = s.num_identities ∧
    s'.hooked = s.hooked := by
  unfold load_step at h
  split at h
  · exact load_model_ok_fields env s t s' h
  · simp only [Prod.mk.injEq, Except.ok.injEq] at h
    obtain ⟨-, hs⟩ := h
    subst hs
    exact ⟨rfl, rfl, rfl, rfl, rfl, rfl, rfl, rfl, rfl⟩

theorem construct_pre_ok_fields (env : TorchEnv) (built : NNModel)
    (name : String) (wp el : Option String) (pf : Option Preprocess)
    (tr : List Event) (s : ModelState)
    (h : construct_pre env built name wp el pf = (tr, Except.ok s)) :
    s.name = name ∧ s.weights_path = wp ∧ s.extract_layer = el ∧
    s.preprocess = set_preprocess_function pf ∧ s.hook_output = none ∧
    s.device = pick_device env ∧ s.model = some built ∧ s.hooked = [] ∧
    (truthy wp = false → s.num_identities = none) := by
  unfold construct_pre at h
  split at h
  · simp at h
  · next t1 s1 heq1 =>
    split at h
    · simp at h
    · next t3 s3 heq3 =>
      simp only [Prod.mk.injEq, Except.ok.injEq] at h
      obtain ⟨-, hs⟩ := h
      subst hs
      obtain ⟨n1, w1, e1, p1, ho1, d1, m1, hk1⟩ :=
        num_identities_step_ok_fields _ _ _ _ heq1
      obtain ⟨n3, w3, e3, p3, ho3, d3, m3, ni3, hk3⟩ :=
        load_step_ok_fields _ _ _ _ heq3
      obtain ⟨n4, w4, e4, p4, ho4, d4, m4, ni4, hk4⟩ := to_device_fields s3
      simp only [init_state] at n1 w1 e1 p1 ho1 d1 m1 hk1
      refine ⟨?_, ?_, ?_, ?_, ?_, ?_, ?_, ?_, ?_⟩
      · rw [n4, n3]; exact n1
      · rw [w4, w3]; exact w1
      · rw [e4, e3]; exact e1
      · rw [p4, p3]; exact p1
      · rw [ho4, ho3]; exact ho1
      · rw [d4, d3]; exact d1
      · rw [m4, m3]
      · rw [hk4, hk3]; exact hk1
      · intro hf
        have hw0 : s1.weights_path = wp := w1
        have : num_identities_step env (init_state name wp el pf env) =
            ([], Except.ok (init_state name wp el pf env)) :=
          num_identities_step_of_falsy env _ (by simpa [init_state] using hf)
        rw [this] at heq1
        simp only [Prod.mk.injEq, Except.ok.injEq] at heq1
        obtain ⟨-, hs1⟩ := heq1
        rw [ni4, ni3, ← hs1]
        simp [init_state]

theorem register_hook_trace (s : ModelState) :
    (register_hook s).1 = [] ∨
    ∃ l, (register_hook s).1 = [Event.registerHook l] := by
  unfold register_hook
  split
  · simp
  · split
    · simp
    · split
      · simp
      · simp
      · right; exact ⟨_, rfl⟩

theorem load_step_no_register (env : TorchEnv) (s : ModelState)
    (l : String) : Event.registerHook l ∉ (load_step env s).1 := by
  unfold load_step
  split
  · intro hmem
    have := load_model_trace_events env s _ hmem
    simp at this
  · simp

theorem construct_pre_no_register (env : TorchEnv) (built : NNModel)
    (name : String) (wp el : Option String) (pf : Option Preprocess)
    (l : String) :
    Event.registerHook l ∉ (construct_pre env built name wp el pf).1 := by
  unfold construct_pre
  split
  · next t1 e heq1 =>
    have ht1 : t1 = (num_identities_step env (init_state name wp el pf env)).1 := by
      rw [heq1]
    rcases num_identities_step_trace env (init_state name wp el pf env) with h | h <;>
      · have he : t1 = _ := ht1.trans h
        subst he
        simp
  · next t1 s1 heq1 =>
    have ht1 : t1 = (num_identities_step env (init_state name wp el pf env)).1 := by
      rw [heq1]
    split
    · next t3 e heq3 =>
      have hn3 : Event.registerHook l ∉ t3 := by
        have ht3 : t3 = (load_step env { s1 with model := some built }).1 := by
          rw [heq3]
        rw [ht3]
        exact load_step_no_register env _ l
      intro hmem
      rcases num_identities_step_trace env (init_state name wp el pf env) with h | h <;>
        · have he : t1 = _ := ht1.trans h
          subst he
          simp at hmem
          exact hn3 hmem
    · next t3 s3 heq3 =>
      have hn3 : Event.registerHook l ∉ t3 := by
        have ht3 : t3 = (load_step env { s1 with model := some built }).1 := by
          rw [heq3]
        rw [ht3]
        exact load_step_no_register env _ l
      intro hmem
      rcases num_identities_step_trace env (init_state name wp el pf env) with h | h <;>
        rcases to_device_trace s3 with h2 | h2 <;>
        · have he : t1 = _ := ht1.trans h
          subst he
          simp [h2] at hmem
          exact hn3 hmem

theorem construct_ok_fields (env : TorchEnv) (built : NNModel)
    (name : String) (wp el : Option String) (pf : Option Preprocess)
    (tr : List Event) (s : ModelState)
    (h : construct env built name wp el pf = (tr, Except.ok s)) :
    s.name = name ∧ s.weights_path = wp ∧ s.extract_layer = el ∧
    s.preprocess = set_preprocess_function pf ∧ s.hook_output = none ∧
    s.device = pick_device env ∧ s.model = some built ∧
    (truthy wp = false → s.num_identities = none) ∧
    (el = none → s.hooked = []) := by
  unfold construct at h
  split at h
  · simp at h
  · next tr4 s4 heq4 =>
    obtain ⟨f1, f2, f3, f4, f5, f6, f7, f8, f9⟩ :=
      construct_pre_ok_fields _ _ _ _ _ _ _ _ heq4
    simp only [Prod.mk.injEq] at h
    obtain ⟨-, h2⟩ := h
    have hreg : register_hook s4 = ((register_hook s4).1, Except.ok s) := by
      rw [← h2]
    obtain ⟨g1, g2, g3, g4, g5, g6, g7, g8⟩ :=
      register_hook_ok_fields s4 _ s hreg
    refine ⟨g1.trans f1, g2.trans f2, g3.trans f3, g4.trans f4,
      g5.trans f5, g6.trans f6, g7.trans f7,
      fun hf => g8.trans (f9 hf), fun hel => ?_⟩
    have : register_hook s4 = ([], Except.ok s4) :=
      register_hook_none s4 (f3.trans hel)
    rw [this] at h2
    simp only [Except.ok.injEq] at h2
    rw [← h2]
    exact f8

/-- C6: in every construction of a model instance -- including the ones
that fail partway -- the model object is built (the `buildModel` event)
before any loading of weights into the model and before any placement
of the model on a device: scanning the construction trace from the
start, the first event among `buildModel`, `loadWeightsIntoModel` and
`moveModelToDevice` is always `buildModel`. -/
theorem c6_build_before_load_and_device_placement (env : TorchEnv)
    (built : NNModel) (name : String) (wp el : Option String)
    (pf : Option Preprocess) :
    buildsFirst (construct env built name wp el pf).1 = true := by
  unfold construct
  split
  · next tr e heq =>
    unfold construct_pre at heq
    split at heq
    · next t1 e1 heq1 =>
      have ht1 : t1 = (num_identities_step env (init_state name wp el pf env)).1 := by
        rw [heq1]
      simp only [Prod.mk.injEq] at heq
      obtain ⟨htr, -⟩ := heq
      rcases num_identities_step_trace env (init_state name wp el pf env) with h | h <;>
        · have he : t1 = _ := ht1.trans h
          subst he
          rw [← htr]
          simp [buildsFirst]
    · next t1 s1 heq1 =>
      have ht1 : t1 = (num_identities_step env (init_state name wp el pf env)).1 := by
        rw [heq1]
      split at heq
      · next t3 e3 heq3 =>
        simp only [Prod.mk.injEq] at heq
        obtain ⟨htr, -⟩ := heq
        rcases num_identities_step_trace env (init_state name wp el pf env) with h | h <;>
          · have he : t1 = _ := ht1.trans h
            subst he
            rw [← htr]
            simp [buildsFirst]
      · next t3 s3 heq3 =>
        simp at heq
  · next tr4 s4 heq4 =>
    unfold construct_pre at heq4
    split at heq4
    · simp at heq4
    · next t1 s1 heq1 =>
      have ht1 : t1 = (num_identities_step env (init_state name wp el pf env)).1 := by
        rw [heq1]
      split at heq4
      · simp at heq4
      · next t3 s3 heq3 =>
        simp only [Prod.mk.injEq] at heq4
        obtain ⟨htr, -⟩ := heq4
        rcases num_identities_step_trace env (init_state name wp el pf env) with h | h <;>
          · have he : t1 = _ := ht1.trans h
            subst he
            rw [← htr]
            simp [buildsFirst]


/-! ## Helper lemmas about forward passes and error classes -/

theorem num_identities_step_no_value_error (env : TorchEnv) (s : ModelState)
    (msg : String) :
    (num_identities_step env s).2 ≠ Except.error (PyError.valueError msg) := by
  unfold num_identities_step
  split
  · split
    · next e heq =>
        intro hc
        simp only [Except.error.injEq] at hc
        rw [hc] at heq
        exact set_num_identities_no_value_error env s.device (pathOf s.weights_path) msg heq
    · simp
  · simp

theorem load_step_no_value_error (env : TorchEnv) (s : ModelState)
    (msg : String) :
    (load_step env s).2 ≠ Except.error (PyError.valueError msg) := by
  unfold load_step
  split
  · exact load_model_no_value_error env s msg
  · simp

theorem construct_pre_no_value_error (env : TorchEnv) (built : NNModel)
    (name : String) (wp el : Option String) (pf : Option Preprocess)
    (msg : String) :
    (construct_pre env built name wp el pf).2 ≠
      Except.error (PyError.valueError msg) := by
  unfold construct_pre
  split
  · next t1 e heq1 =>
    intro hc
    simp only [Except.error.injEq] at hc
    have : (num_identities_step env (init_state name wp el pf env)).2 =
        Except.error (PyError.valueError msg) := by
      rw [heq1, ← hc]
    exact num_identities_step_no_value_error env _ msg this
  · next t1 s1 heq1 =>
    split
    · next t3 e heq3 =>
      intro hc
      simp only [Except.error.injEq] at hc
      have : (load_step env { s1 with model := some built }).2 =
          Except.error (PyError.valueError msg) := by
        rw [heq3, ← hc]
      exact load_step_no_value_error env _ msg this
    · simp

theorem forward_pass_not_hooked (s : ModelState) (l : String) (o : Tensor)
    (h : s.hooked.contains l = false) : forward_pass s l o = s := by
  unfold forward_pass
  rw [h]
  simp

theorem forward_pass_hooked (s : ModelState) (l : String) (o : Tensor)
    (h : s.hooked.contains l = true) :
    forward_pass s l o = { s with hook_output := some o } := by
  unfold forward_pass
  rw [h]
  simp [hook_fn]

theorem forward_pass_hooked_inv (s : ModelState) (l : String) (o : Tensor) :
    (forward_pass s l o).hooked = s.hooked := by
  unfold forward_pass
  split <;> simp [hook_fn]

theorem run_passes_cons (s : ModelState) (p : String × Tensor)
    (ps : List (String × Tensor)) :
    run_passes s (p :: ps) = run_passes (forward_pass s p.1 p.2) ps := rfl

theorem run_passes_append (s : ModelState) (a b : List (String × Tensor)) :
    run_passes s (a ++ b) = run_passes (run_passes s a) b := by
  unfold run_passes
  exact List.foldl_append _ _ a b

theorem run_passes_hooked_inv (s : ModelState)
    (ps : List (String × Tensor)) : (run_passes s ps).hooked = s.hooked := by
  induction ps generalizing s with
  | nil => rfl
  | cons p ps ih =>
      rw [run_passes_cons, ih, forward_pass_hooked_inv]

theorem run_passes_hook_output_of_unhooked (s : ModelState)
    (ps : List (String × Tensor))
    (h : ∀ p ∈ ps, s.hooked.contains p.1 = false) :
    (run_passes s ps).hook_output = s.hook_output := by
  induction ps generalizing s with
  | nil => rfl
  | cons p ps ih =>
      rw [run_passes_cons, forward_pass_not_hooked s p.1 p.2 (h p (by simp))]
      exact ih s (fun q hq => h q (by simp [hq]))

theorem run_passes_of_no_hooks (s : ModelState)
    (ps : List (String × Tensor)) (h : s.hooked = []) :
    run_passes s ps = s := by
  induction ps generalizing s with
  | nil => rfl
  | cons p ps ih =>
      rw [run_passes_cons, forward_pass_not_hooked s p.1 p.2 (by rw [h]; rfl)]
      exact ih s h

/-- With the empty string as weights path, both truthiness guards are
off and the construction reduces to build, device placement and hook
registration. -/
theorem construct_empty_path_eq (env : TorchEnv) (built : NNModel)
    (name : String) (el : Option String) (pf : Option Preprocess) :
    construct env built name (some "") el pf =
      (Event.setPreprocess :: Event.buildModel :: Event.moveModelToDevice ::
         (register_hook
           { init_state name (some "") el pf env with
               model := some built
             , model_device := some (pick_device env) }).1,
       (register_hook
           { init_state name (some "") el pf env with
               model := some built
             , model_device := some (pick_device env) }).2) := rfl

/-- With no weights path, the construction likewise reduces to build,
device placement and hook registration. -/
theorem construct_none_path_eq (env : TorchEnv) (built : NNModel)
    (name : String) (el : Option String) (pf : Option Preprocess) :
    construct env built name none el pf =
      (Event.setPreprocess :: Event.buildModel :: Event.moveModelToDevice ::
         (register_hook
           { init_state name none el pf env with
               model := some built
             , model_device := some (pick_device env) }).1,
       (register_hook
           { init_state name none el pf env with
               model := some built
             , model_device := some (pick_device env) }).2) := rfl

/-- `_register_hook` neither reads nor depends on `weights_path`. -/
theorem register_hook_wp_irrel (s : ModelState) (w : Option String) :
    (register_hook { s with weights_path := w }).1 = (register_hook s).1 ∧
    ((register_hook { s with weights_path := w }).2.map
       (fun s2 => { s2 with weights_path := none })) =
      ((register_hook s).2.map (fun s2 => { s2 with weights_path := none })) := by
  unfold register_hook
  cases hel : s.extract_layer with
  | none => simp [hel, Except.map]
  | some nm =>
      cases hm : s.model with
      | none => simp [hel, hm, Except.map]
      | some m =>
          cases hg : get_layer m (some nm) with
          | error e => simp [hel, hm, hg, Except.map]
          | ok lo =>
              cases lo with
              | none => simp [hel, hm, hg, Except.map]
              | some l => simp [hel, hm, hg, Except.map]

/-! ## The claims -/

/-- C1: for every checkpoint that `torch.load` yields, identity-count
inference returns the first dimension of the shape of the final entry
of `checkpoint["state_dict"]` when the key `state_dict` is present, and
of the final entry of the checkpoint mapping itself otherwise; any
successful result arises from one of those two recognized layouts, so
an unrecognized checkpoint format fails. -/
theorem c1_num_identities_inference (env : TorchEnv) (dev : Device)
    (path : String) (ckpt : Checkpoint) (hload : env.load path = some ckpt) :
    (∀ sd kv d0 ds, List.lookup "state_dict" ckpt = some (CkptVal.dict sd) →
      sd.getLast? = some kv → kv.2.shape = d0 :: ds →
      set_num_identities env dev path = Except.ok d0) ∧
    (∀ k t d0 ds, List.lookup "state_dict" ckpt = none →
      ckpt.getLast? = some (k, CkptVal.tensor t) → t.shape = d0 :: ds →
      set_num_identities env dev path = Except.ok d0) ∧
    (∀ n, set_num_identities env dev path = Except.ok n →
      (∃ sd kv ds, List.lookup "state_dict" ckpt = some (CkptVal.dict sd) ∧
        sd.getLast? = some kv ∧ kv.2.shape = n :: ds) ∨
      (∃ k t ds, List.lookup "state_dict" ckpt = none ∧
        ckpt.getLast? = some (k, CkptVal.tensor t) ∧ t.shape = n :: ds)) := by
  refine ⟨?_, ?_, ?_⟩
  · intro sd kv d0 ds h1 h2 h3
    unfold set_num_identities
    rw [hload]
    simp only [h1, h2, h3]
  · intro k t d0 ds h1 h2 h3
    unfold set_num_identities
    rw [hload]
    simp only [h1, h2, h3]
  · intro n h
    unfold set_num_identities at h
    rw [hload] at h
    split at h
    · simp at h
    next checkpoint heqc =>
    simp only [Option.some.injEq] at heqc
    subst heqc
    split at h
    · next sd heq =>
      split at h
      · simp at h
      · next kv heq2 =>
        split at h
        · simp at h
        · next d0 ds heq3 =>
          simp only [Except.ok.injEq] at h
          subst h
          exact Or.inl ⟨sd, kv, ds, heq, heq2, heq3⟩
    · simp at h
    · next heq =>
      split at h
      · simp at h
      · simp at h
      · next k2 t2 heq2 =>
        split at h
        · simp at h
        · next d0 ds heq3 =>
          simp only [Except.ok.injEq] at h
          subst h
          exact Or.inr ⟨k2, t2, ds, heq, heq2, heq3⟩

/-- C1 witness: on a concrete unwrapped checkpoint whose final entry has
shape `[7, 3]`, inference returns 7. -/
theorem c1_witness :
    set_num_identities wEnv Device.cpu "weights.pth" = Except.ok 7 :=
  (c1_num_identities_inference wEnv Device.cpu "weights.pth" wCkptRaw
    rfl).2.1 "fc.bias" wTensor 7 [3] rfl rfl rfl

/-- C2 counterexample: the key `amodule.b` does not begin with the
prefix `module.`, yet the transformation of `_load_model` changes it to
`ab` -- refuting the claim that keys merely containing `module.` in
their interior are left unchanged. -/
theorem c2_counterexample :
    beginsWith moduleChars ("amodule.b".data) = false ∧
    stripKey "amodule.b" = "ab" ∧
    stripKey "amodule.b" ≠ "amodule.b" :=
  ⟨by decide, by decide, by decide⟩

/-- C2 (amended): the transformation applied to parameter names removes
every left-to-right non-overlapping occurrence of `module.` from the
name -- a leading prefix is stripped, a name with no occurrence is left
unchanged, and a name with any occurrence (interior ones included) is
strictly shortened -- and loading a state dictionary whose names carry
that prefix succeeds after the stripping. -/
theorem c2_strip_and_load :
    (∀ k : List Char, hasOcc moduleChars k = false →
      stripModuleAll (moduleChars ++ k) = k) ∧
    (∀ k : List Char, hasOcc moduleChars k = false → stripModuleAll k = k) ∧
    (∀ k : List Char, hasOcc moduleChars k = true →
      (stripModuleAll k).length < k.length) ∧
    (∀ (env : TorchEnv) (s : ModelState) (m : NNModel) (ckpt : Checkpoint)
        (sd : List (String × Tensor)),
      s.model = some m →
      env.load (pathOf s.weights_path) = some ckpt →
      List.lookup "state_dict" ckpt = some (CkptVal.dict sd) →
      (∀ k ∈ sd.map Prod.fst, beginsWith moduleChars k.data = true) →
      keysMatch (sd.map (fun kv => stripKey kv.1)) m.param_names = true →
      ∃ s', (load_model env s).2 = Except.ok s') := by
  refine ⟨?_, stripModuleAll_of_no_occ, stripModuleAll_length_lt, ?_⟩
  · intro k hk
    rw [stripModuleAll_append_pat]
    exact stripModuleAll_of_no_occ k hk
  · intro env s m ckpt sd hm hload hlk hpre hkeys
    unfold load_model
    rw [hload]
    have hsd : get_state_dict ckpt = Except.ok sd := by
      unfold get_state_dict
      rw [hlk]
    simp only [hsd, hm]
    have hmap : (sd.map (fun kv => (stripKey kv.1, kv.2))).map Prod.fst =
        sd.map (fun kv => stripKey kv.1) := by
      rw [List.map_map]
      rfl
    rw [hmap, hkeys]
    simp

/-- C2 witness: a prefix-free name is unchanged, a prefixed one is
stripped, and loading a state dictionary with the prefixed name
`module.w` into a model expecting `w` succeeds. -/
theorem c2_witness :
    (hasOcc moduleChars ("fc.weight".data) = false ∧
      stripModuleAll (moduleChars ++ "fc.weight".data) = "fc.weight".data) ∧
    ∃ s', (load_model w2Env w2State).2 = Except.ok s' :=
  ⟨⟨by decide, c2_strip_and_load.1 ("fc.weight".data) (by decide)⟩,
   c2_strip_and_load.2.2.2 w2Env w2State w2Model w2Ckpt [("module.w", wTensor)]
     rfl rfl rfl (by decide) (by decide)⟩

/-- C3: hook registration looks the layer name up by exact match in the
model's named-module mapping; a present name registers the hook and the
construction succeeds with that layer instrumented, while an absent
name makes construction fail with a `ValueError` whose message names
the layer, with no registration event (no retry) in the trace. -/
theorem c3_hook_registration :
    (∀ (m : NNModel) (nm : String), m.named_modules.contains nm = true →
      get_layer m (some nm) = Except.ok (some nm)) ∧
    (∀ (m : NNModel) (nm : String), m.named_modules.contains nm = false →
      get_layer m (some nm) = Except.error
        (PyError.valueError ("Layer " ++ nm ++ " not found in the model."))) ∧
    (∀ (env : TorchEnv) (built : NNModel) (name : String)
        (wp : Option String) (pf : Option Preprocess) (nm : String)
        (tr : List Event) (s : ModelState),
      construct_pre env built name wp (some nm) pf = (tr, Except.ok s) →
      built.named_modules.contains nm = false →
      (construct env built name wp (some nm) pf).2 = Except.error
        (PyError.valueError ("Layer " ++ nm ++ " not found in the model.")) ∧
      ∀ l, Event.registerHook l ∉ (construct env built name wp (some nm) pf).1) ∧
    (∀ (env : TorchEnv) (built : NNModel) (name : String)
        (wp : Option String) (pf : Option Preprocess) (nm : String)
        (tr : List Event) (s : ModelState),
      construct_pre env built name wp (some nm) pf = (tr, Except.ok s) →
      built.named_modules.contains nm = true →
      ∃ tr' s', construct env built name wp (some nm) pf = (tr', Except.ok s') ∧
        s'.hooked = [nm]) := by
  have hget_t : ∀ (m : NNModel) (nm : String),
      m.named_modules.contains nm = true →
      get_layer m (some nm) = Except.ok (some nm) := by
    intro m nm h
    have h2 : nm ∈ m.named_modules := by simpa using h
    simp [get_layer, h2]
  have hget_f : ∀ (m : NNModel) (nm : String),
      m.named_modules.contains nm = false →
      get_layer m (some nm) = Except.error
        (PyError.valueError ("Layer " ++ nm ++ " not found in the model.")) := by
    intro m nm h
    have h2 : nm ∉ m.named_modules := by simpa using h
    simp [get_layer, h2]
  refine ⟨hget_t, hget_f, ?_, ?_⟩
  · intro env built name wp pf nm tr s heq habs
    obtain ⟨f1, f2, f3, f4, f5, f6, f7, f8, f9⟩ :=
      construct_pre_ok_fields _ _ _ _ _ _ _ _ heq
    have hreg : register_hook s = ([], Except.error
        (PyError.valueError ("Layer " ++ nm ++ " not found in the model."))) := by
      simp only [register_hook, f3, f7]
      rw [hget_f built nm habs]
    constructor
    · unfold construct
      rw [heq]
      simp only [hreg]
    · intro l
      unfold construct
      rw [heq]
      simp only [hreg, List.append_nil]
      have hnr := construct_pre_no_register env built name wp (some nm) pf l
      rw [heq] at hnr
      exact hnr
  · intro env built name wp pf nm tr s heq hpres
    obtain ⟨f1, f2, f3, f4, f5, f6, f7, f8, f9⟩ :=
      construct_pre_ok_fields _ _ _ _ _ _ _ _ heq
    have hreg : register_hook s = ([Event.registerHook nm],
        Except.ok { s with hooked := nm :: s.hooked }) := by
      simp only [register_hook, f3, f7]
      rw [hget_t built nm hpres]
    refine ⟨tr ++ [Event.registerHook nm], { s with hooked := nm :: s.hooked },
      ?_, ?_⟩
    · unfold construct
      rw [heq]
      simp only [hreg]
    · simp [f8]

/-- C3 witness: looking up the existing layer `fc` succeeds and the
construction instruments it; constructing with the nonexistent layer
`nope` fails with the error naming it. -/
theorem c3_witness :
    (get_layer w3Model (some "fc") = Except.ok (some "fc")) ∧
    (∃ tr' s', construct w3Env w3Model "m" none (some "fc") none =
        (tr', Except.ok s') ∧ s'.hooked = ["fc"]) ∧
    (construct w3Env w3Model "m" none (some "nope") none).2 =
      Except.error (PyError.valueError "Layer nope not found in the model.") :=
  ⟨c3_hook_registration.1 w3Model "fc" (by decide),
   c3_hook_registration.2.2.2 w3Env w3Model "m" none none "fc" _ _ rfl
     (by decide),
   (c3_hook_registration.2.2.1 w3Env w3Model "m" none none "nope" _ _ rfl
     (by decide)).1⟩

/-- C4: the cached hook output is a single mutable slot: each
`hook_fn` invocation replaces exactly the `hook_output` field with the
new output (no other state, no history), and after any sequence of
forward passes ending in a pass through an instrumented layer the slot
holds precisely that final pass's output (hence it is non-empty). -/
theorem c4_hook_single_slot :
    (∀ (s : ModelState) (mod : String) (inp out : Tensor),
      hook_fn s mod inp out = { s with hook_output := some out } ∧
      (hook_fn s mod inp out).hook_output = some out) ∧
    (∀ (s : ModelState) (ps : List (String × Tensor)) (l : String) (o : Tensor),
      s.hooked.contains l = true →
      (run_passes s (ps ++ [(l, o)])).hook_output = some o) := by
  constructor
  · intro s mod inp out
    exact ⟨rfl, rfl⟩
  · intro s ps l o h
    rw [run_passes_append, run_passes_cons]
    have hinv : (run_passes s ps).hooked = s.hooked := run_passes_hooked_inv s ps
    rw [forward_pass_hooked _ _ _ (by rw [hinv]; exact h)]
    rfl

/-- C4 witness: after passes producing shapes `[2]` then `[3, 4]` on
the instrumented layer `fc`, the slot holds the `[3, 4]` output. -/
theorem c4_witness :
    (run_passes w4State
        ([("a", { shape := [1] }), ("fc", { shape := [2] })] ++
          [("fc", { shape := [3, 4] })])).hook_output =
      some { shape := [3, 4] } :=
  c4_hook_single_slot.2 w4State [("a", { shape := [1] }), ("fc", { shape := [2] })]
    "fc" { shape := [3, 4] } (by decide)

/-- C5: every successfully constructed instance ends construction with
the hook output slot equal to `None`, and the slot stays `None` through
any sequence of forward passes that never goes through an instrumented
layer. -/
theorem c5_slot_none_until_first_pass (env : TorchEnv) (built : NNModel)
    (name : String) (wp el : Option String) (pf : Option Preprocess)
    (tr : List Event) (s : ModelState)
    (h : construct env built name wp el pf = (tr, Except.ok s)) :
    s.hook_output = none ∧
    ∀ ps, (∀ p ∈ ps, s.hooked.contains p.1 = false) →
      (run_passes s ps).hook_output = none := by
  obtain ⟨-, -, -, -, f5, -, -, -, -⟩ := construct_ok_fields _ _ _ _ _ _ _ _ h
  refine ⟨f5, fun ps hps => ?_⟩
  rw [run_passes_hook_output_of_unhooked s ps hps]
  exact f5

/-- C5 witness: a concrete successful construction has an empty slot,
and a pass through an uninstrumented layer leaves it empty. -/
theorem c5_witness :
    ∃ tr s, construct w3Env w3Model "m" none (some "fc") none =
        (tr, Except.ok s) ∧
      s.hook_output = none ∧
      (run_passes s [("other", { shape := [9] })]).hook_output = none := by
  refine ⟨_, _, rfl, ?_⟩
  have h := c5_slot_none_until_first_pass w3Env w3Model "m" none (some "fc")
    none _ _ rfl
  exact ⟨h.1, h.2 [("other", { shape := [9] })] (by decide)⟩

/-- C7: when no preprocessing function is supplied, `self.preprocess`
is the fixed default pipeline of a 224x224 resize, tensor conversion
and normalization with mean 0.485/0.456/0.406 and std 0.229/0.224/0.225;
when one is supplied it is taken verbatim; and every successful
construction stores exactly `set_preprocess_function` of its argument. -/
theorem c7_preprocess_default_or_verbatim :
    (set_preprocess_function none = Preprocess.pipeline
      [ Transform.resize 224 224
      , Transform.toTensor
      , Transform.normalize
          [(485 : Rat)/1000, (456 : Rat)/1000, (406 : Rat)/1000]
          [(229 : Rat)/1000, (224 : Rat)/1000, (225 : Rat)/1000] ]) ∧
    (∀ f, set_preprocess_function (some f) = f) ∧
    (∀ (env : TorchEnv) (built : NNModel) (name : String)
        (wp el : Option String) (pf : Option Preprocess)
        (tr : List Event) (s : ModelState),
      construct env built name wp el pf = (tr, Except.ok s) →
      s.preprocess = set_preprocess_function pf) := by
  refine ⟨rfl, fun f => rfl, ?_⟩
  intro env built name wp el pf tr s h
  exact (construct_ok_fields _ _ _ _ _ _ _ _ h).2.2.2.1

/-- C7 witness: a user-supplied function is stored verbatim, and a
concrete construction without one stores the default pipeline. -/
theorem c7_witness :
    set_preprocess_function (some (Preprocess.custom 5)) = Preprocess.custom 5 ∧
    ∃ tr s, construct w3Env w3Model "m" none none none = (tr, Except.ok s) ∧
      s.preprocess = set_preprocess_function none := by
  refine ⟨c7_preprocess_default_or_verbatim.2.1 (Preprocess.custom 5),
    _, _, rfl, ?_⟩
  exact c7_preprocess_default_or_verbatim.2.2 w3Env w3Model "m" none none none
    _ _ rfl

/-- C8: the device attribute of every constructed instance is `cuda`
exactly when an accelerator is available in the runtime and `cpu`
exactly otherwise, and `self.to()` moves the underlying model (when
present) to that device. -/
theorem c8_device_placement :
    (∀ (env : TorchEnv) (built : NNModel) (name : String)
        (wp el : Option String) (pf : Option Preprocess)
        (tr : List Event) (s : ModelState),
      construct env built name wp el pf = (tr, Except.ok s) →
      ((s.device = Device.cuda ↔ env.cuda_available = true) ∧
       (s.device = Device.cpu ↔ env.cuda_available = false))) ∧
    (∀ (s : ModelState) (m : NNModel), s.model = some m →
      (to_device s).1.model_device = some s.device) := by
  constructor
  · intro env built name wp el pf tr s h
    have f6 := (construct_ok_fields _ _ _ _ _ _ _ _ h).2.2.2.2.2.1
    rw [f6]
    unfold pick_device
    cases hc : env.cuda_available <;> simp
  · intro s m hm
    simp [to_device, hm]

/-- C8 witness: a construction in a cuda-capable runtime places the
instance on `cuda`, and `self.to()` on a concrete instance moves the
model to the instance's device. -/
theorem c8_witness :
    (∃ tr s, construct w3Env w3Model "m" none none none = (tr, Except.ok s) ∧
      (s.device = Device.cuda ↔ w3Env.cuda_available = true)) ∧
    (to_device w4State).1.model_device = some w4State.device := by
  constructor
  · refine ⟨_, _, rfl, ?_⟩
    exact (c8_device_placement.1 w3Env w3Model "m" none none none _ _ rfl).1
  · exact c8_device_placement.2 w4State w3Model rfl

/-- C9: with no `extract_layer`, no hook-registration event ever occurs,
the layer-not-found `ValueError` is never raised, and a successful
construction has no instrumented layer, so the hook output slot stays
`None` after arbitrary forward passes. -/
theorem c9_none_extract_layer (env : TorchEnv) (built : NNModel)
    (name : String) (wp : Option String) (pf : Option Preprocess) :
    (∀ l, Event.registerHook l ∉ (construct env built name wp none pf).1) ∧
    (∀ msg, (construct env built name wp none pf).2 ≠
      Except.error (PyError.valueError msg)) ∧
    (∀ tr s, construct env built name wp none pf = (tr, Except.ok s) →
      s.hooked = [] ∧ ∀ ps, (run_passes s ps).hook_output = none) := by
  refine ⟨?_, ?_, ?_⟩
  · intro l
    unfold construct
    split
    · next tr e heq =>
      have hnr := construct_pre_no_register env built name wp none pf l
      rw [heq] at hnr
      exact hnr
    · next tr4 s4 heq4 =>
      obtain ⟨-, -, f3, -, -, -, -, -, -⟩ :=
        construct_pre_ok_fields _ _ _ _ _ _ _ _ heq4
      rw [register_hook_none s4 f3]
      simp only [List.append_nil]
      have hnr := construct_pre_no_register env built name wp none pf l
      rw [heq4] at hnr
      exact hnr
  · intro msg
    unfold construct
    split
    · next tr e heq =>
      intro hc
      simp only at hc
      have hpre := construct_pre_no_value_error env built name wp none pf msg
      rw [heq] at hpre
      exact hpre hc
    · next tr4 s4 heq4 =>
      obtain ⟨-, -, f3, -, -, -, -, -, -⟩ :=
        construct_pre_ok_fields _ _ _ _ _ _ _ _ heq4
      rw [register_hook_none s4 f3]
      simp
  · intro tr s h
    obtain ⟨-, -, -, -, f5, -, -, -, f9⟩ :=
      construct_ok_fields _ _ _ _ _ _ _ _ h
    have hk : s.hooked = [] := f9 rfl
    refine ⟨hk, fun ps => ?_⟩
    rw [run_passes_of_no_hooks s ps hk]
    exact f5

/-- C9 witness: a concrete construction without a layer to instrument
succeeds with no hooks, and a later pass through `fc` leaves the slot
empty. -/
theorem c9_witness :
    ∃ tr s, construct w3Env w3Model "m" none none none = (tr, Except.ok s) ∧
      s.hooked = [] ∧
      (run_passes s [("fc", { shape := [2] })]).hook_output = none := by
  refine ⟨_, _, rfl, ?_⟩
  have h := (c9_none_extract_layer w3Env w3Model "m" none none).2.2 _ _ rfl
  exact ⟨h.1, h.2 [("fc", { shape := [2] })]⟩

/-- C10: a construction with the empty string as `weights_path` behaves
exactly like one with no `weights_path` at all: identical event traces
(in particular no checkpoint is ever opened), identical outcomes apart
from the stored `weights_path` attribute itself, and `num_identities`
is `None` on success. -/
theorem c10_empty_weights_path (env : TorchEnv) (built : NNModel)
    (name : String) (el : Option String) (pf : Option Preprocess) :
    ((construct env built name (some "") el pf).1 =
      (construct env built name none el pf).1) ∧
    (Event.readCheckpoint ∉ (construct env built name (some "") el pf).1) ∧
    ((construct env built name (some "") el pf).2.map
        (fun s => { s with weights_path := none }) =
      (construct env built name none el pf).2.map
        (fun s => { s with weights_path := none })) ∧
    (∀ tr s, construct env built name (some "") el pf = (tr, Except.ok s) →
      s.num_identities = none) := by
  have hA := construct_empty_path_eq env built name el pf
  have hB := construct_none_path_eq env built name el pf
  obtain ⟨hw1, hw2⟩ := register_hook_wp_irrel
    { init_state name none el pf env with
        model := some built, model_device := some (pick_device env) } (some "")
  refine ⟨?_, ?_, ?_, ?_⟩
  · rw [hA, hB]
    simpa using hw1
  · rw [hA]
    rcases register_hook_trace
      { init_state name (some "") el pf env with
          model := some built, model_device := some (pick_device env) } with
      h | ⟨l, h⟩ <;> simp [h]
  · rw [hA, hB]
    simpa using hw2
  · intro tr s h
    obtain ⟨-, -, -, -, -, -, -, f8, -⟩ :=
      construct_ok_fields _ _ _ _ _ _ _ _ h
    exact f8 rfl

/-- C10 witness: a concrete construction with an empty-string weights
path succeeds with `num_identities = none`. -/
theorem c10_witness :
    ∃ tr s, construct w3Env w3Model "m" (some "") none none =
        (tr, Except.ok s) ∧ s.num_identities = none := by
  refine ⟨_, _, rfl, ?_⟩
  exact (c10_empty_weights_path w3Env w3Model "m" none none).2.2.2 _ _ rfl

end FacesBenchmark
